import Mathlib

/-!
Shallow embedding of the connection-pool module (`src/client/pool.rs`) of
tmi-rs, together with theorems settling the specification claims about it.

The pool actor's loop body is embedded as a pure step function over the
pool state; the effects of one iteration (values sent through the one-shot
responder, messages dispatched to sessions) are returned explicitly, and
the outcomes of the external effects the iteration consumes (per-session
send results, the connection factory) are supplied as oracles.
-/

set_option maxHeartbeats 1000000

namespace TmiPool

/-- Channel names, `String` as in the source. -/
abbrev Channel := String

/-- Mirrors `crate::ClientMessage`, restricted to the variants matched by the
pool actor in `pool.rs`; payloads are reduced to the fields the pool reads. -/
inductive ClientMessage where
  | privMsg (channel : Channel) (message : String)
  | whisper (recipient : String) (message : String)
  | ping
  | pong
  | part (channel : Channel)
  | join (channel : Channel)
  | nick (nickname : String)
  | pass (token : String)
  | capRequest (caps : String)
  | close
  deriving DecidableEq, Repr

/-- Modelled from the spec: the per-command success response type
(`MessageResponse`, defined outside the pool module). Its content is opaque
to the pool, which only forwards it through the responder. -/
inductive MessageResponse where
  | response (tag : Nat)
  deriving DecidableEq, Repr

/-- The `MessageSendError` variants produced or forwarded by the pool actor
in `pool.rs`; `sessionError` stands for any underlying send failure of a
session, which the pool passes through unchanged. -/
inductive MessageSendError where
  | channelNotJoined (original : ClientMessage)
  | newConnectionFailed (detail : String)
  | unsupportedMessage (reason : String)
  | sessionError (code : Nat)
  deriving DecidableEq, Repr

/-- Mirrors `ConnectionHandle`: `id` identifies the underlying session's
`MessageSender`, and `joinedChannels` models `context.joined_channels`, the
session context's set of joined channel names (the context lives in
`client/single`; spec section 3, Session Context). The actor reads its
length via `handle.context.joined_channels.read().await.len()`. -/
structure ConnectionHandle where
  id : Nat
  joinedChannels : List Channel
  deriving DecidableEq, Repr

/-- A `Weak<ConnectionHandle>` as stored in `channel_connections_map`:
`upgrade()` yields the target session only while the weak reference is
still live. -/
structure WeakHandle where
  targetId : Nat
  live : Bool
  deriving DecidableEq, Repr

/-- Mirrors the `ConnectionPool` struct (the event channel endpoints carry
no pool logic and are omitted): the strong session list `connections`, the
dedicated `whisper_connection` (identified by session id), and the
channel-to-session weak map `channel_connections_map`. -/
structure ConnectionPool where
  connections : List ConnectionHandle
  whisperId : Nat
  channelMap : List (Channel × WeakHandle)
  deriving DecidableEq, Repr

/-- Association-list lookup mirroring `FnvHashMap::get`. -/
def lookupChannel (m : List (Channel × WeakHandle)) (c : Channel) : Option WeakHandle :=
  (m.find? (fun p => p.1 == c)).map (fun p => p.2)

/-- Mirrors `ConnectionPool::get_channel_connection`: map lookup, and-then
weak-reference upgrade. -/
def ConnectionPool.getChannelConnection (p : ConnectionPool) (c : Channel) : Option Nat :=
  (lookupChannel p.channelMap c).bind (fun w => if w.live then some w.targetId else none)

/-- Mirrors `FnvHashMap::insert` on the association list: binds the key,
replacing any existing binding. -/
def insertChannel (m : List (Channel × WeakHandle)) (c : Channel) (w : WeakHandle) :
    List (Channel × WeakHandle) :=
  (c, w) :: m.filter (fun p => p.1 != c)

/-- The `filter_map` stage of the `Join` arm: keep each session whose
joined-channel count (read from its context) is at most
`pool_cfg.threshold`, paired with that count. -/
def eligiblePairs (conns : List ConnectionHandle) (threshold : Nat) :
    List (ConnectionHandle × Nat) :=
  conns.filterMap (fun handle =>
    if handle.joinedChannels.length ≤ threshold
      then some (handle, handle.joinedChannels.length) else none)

/-- Rust `Iterator::min_by_key` on the collected pairs: the first element
with the minimal key is returned (a later element replaces the current
minimum only when its key is strictly smaller). -/
def minByKeyFirst : List (ConnectionHandle × Nat) → Option (ConnectionHandle × Nat)
  | [] => none
  | x :: xs =>
    match minByKeyFirst xs with
    | none => some x
    | some b => some (if b.2 < x.2 then b else x)

/-- The placement decision of the `Join` arm for an unmapped channel:
`filter_map` by the threshold, then `min_by_key` on the joined-channel
count, keeping only the handle. `none` means no session is eligible and a
new connection must be created. -/
def placement (conns : List ConnectionHandle) (threshold : Nat) : Option ConnectionHandle :=
  (minByKeyFirst (eligiblePairs conns threshold)).map (fun p => p.1)

/-- The effect oracles one actor iteration consumes: the outcome of
`handle.send(msg)` per session id, the outcome of `new_connection` (with
its error already formatted to the detail string), and
`pool_cfg.threshold`. -/
structure StepEnv where
  sendResult : Nat → ClientMessage → Except MessageSendError MessageResponse
  factory : Except String ConnectionHandle
  threshold : Nat

/-- Observable outcome of processing one command envelope: the updated pool
state, the values sent through the envelope's one-shot responder
(`resolutions`), and the messages dispatched to sessions (`dispatches`,
session id paired with the message sent). -/
structure StepOutput where
  pool : ConnectionPool
  resolutions : List (Except MessageSendError MessageResponse)
  dispatches : List (Nat × ClientMessage)

/-- Modelled from the spec: `respond_with_errors` (from `crate::stream`,
whose source is not part of the pool module) resolves the one-shot
responder with the given send result, passing successes and failures
through unchanged (spec sections 3 and 6). -/
def respondWithErrors (r : Except MessageSendError MessageResponse) :
    List (Except MessageSendError MessageResponse) :=
  [r]

/-- The `ClientMessage::Close` arm's `for` loop: send `Close` to each
session in list order, stopping at the first failed send, which is
forwarded to the responder. Returns the dispatched close commands and the
responder resolutions. -/
def closeLoop (env : StepEnv) :
    List ConnectionHandle →
      List (Nat × ClientMessage) × List (Except MessageSendError MessageResponse)
  | [] => ([], [])
  | h :: rest =>
    match env.sendResult h.id .close with
    | .ok _ =>
      let r := closeLoop env rest
      ((h.id, .close) :: r.1, r.2)
    | .error e => ([(h.id, .close)], [.error e])

/-- Whether a send result is `Ok`. -/
def isOkResult : Except MessageSendError MessageResponse → Bool
  | .ok _ => true
  | .error _ => false

/-- One iteration of the pool actor's `while let` loop in `connect`:
process a single command envelope against the pool state, with the effect
outcomes supplied by `env`. -/
def step (env : StepEnv) (p : ConnectionPool) (msg : ClientMessage) : StepOutput :=
  match msg with
  | .privMsg channel _ =>
    match p.getChannelConnection channel with
    | some sid =>
      { pool := p, resolutions := respondWithErrors (env.sendResult sid msg)
        dispatches := [(sid, msg)] }
    | none =>
      { pool := p, resolutions := [.error (.channelNotJoined msg)], dispatches := [] }
  | .whisper _ _ =>
    { pool := p, resolutions := respondWithErrors (env.sendResult p.whisperId msg)
      dispatches := [(p.whisperId, msg)] }
  | .ping =>
    { pool := p, resolutions := respondWithErrors (env.sendResult p.whisperId msg)
      dispatches := [(p.whisperId, msg)] }
  | .pong =>
    { pool := p, resolutions := respondWithErrors (env.sendResult p.whisperId msg)
      dispatches := [(p.whisperId, msg)] }
  | .part channel =>
    match p.getChannelConnection channel with
    | some sid =>
      { pool := p, resolutions := respondWithErrors (env.sendResult sid msg)
        dispatches := [(sid, msg)] }
    | none =>
      { pool := p, resolutions := [.error (.channelNotJoined msg)], dispatches := [] }
  | .join channel =>
    match p.getChannelConnection channel with
    | some sid =>
      { pool := p, resolutions := respondWithErrors (env.sendResult sid msg)
        dispatches := [(sid, msg)] }
    | none =>
      match placement p.connections env.threshold with
      | some handle =>
        { pool := p, resolutions := respondWithErrors (env.sendResult handle.id msg)
          dispatches := [(handle.id, msg)] }
      | none =>
        match env.factory with
        | .ok conn =>
          { pool :=
              { p with
                connections := p.connections ++ [conn]
                channelMap := insertChannel p.channelMap channel
                  { targetId := conn.id, live := true } }
            resolutions := respondWithErrors (env.sendResult conn.id msg)
            dispatches := [(conn.id, msg)] }
        | .error e =>
          { pool := p, resolutions := respondWithErrors (.error (.newConnectionFailed e))
            dispatches := [] }
  | .nick _ =>
    { pool := p
      resolutions :=
        [.error (.unsupportedMessage ("NICK is sent automatically in managed connection pools."))]
      dispatches := [] }
  | .pass _ =>
    { pool := p
      resolutions :=
        [.error (.unsupportedMessage ("PASS is sent automatically in managed connection pools."))]
      dispatches := [] }
  | .capRequest _ =>
    { pool := p
      resolutions :=
        [.error (.unsupportedMessage ("CAP REQs are sent automatically in managed connection pools."))]
      dispatches := [] }
  | .close =>
    { pool := p, resolutions := (closeLoop env p.connections).2
      dispatches := (closeLoop env p.connections).1 }

/-- Outcome of `connect`: `ok` carries the pool actor's initial state,
`err` propagates a `new_connection` failure (the `?` operator), and
`panicIndexOutOfBounds` marks the expression `default_connections[0]`
evaluated on an empty vector, an out-of-bounds index that panics. -/
inductive ConnectResult where
  | ok (pool : ConnectionPool)
  | err (e : String)
  | panicIndexOutOfBounds
  deriving DecidableEq, Repr

/-- The `for _ in 0..pool_cfg.init_connections` loop of `connect`: create
the initial sessions in order, propagating the first factory failure. -/
def buildConnections (factory : Nat → Except String ConnectionHandle) :
    Nat → Except String (List ConnectionHandle)
  | 0 => .ok []
  | n + 1 =>
    match buildConnections factory n with
    | .error e => .error e
    | .ok conns =>
      match factory n with
      | .error e => .error e
      | .ok c => .ok (conns ++ [c])

/-- Mirrors `connect` up to the construction of the `ConnectionPool` value:
the initial-connection loop, then `whisper_connection =
default_connections[0].clone()`, which panics when the vector is empty,
then the pool struct with an empty channel map. -/
def connect (factory : Nat → Except String ConnectionHandle) (initConnections : Nat) :
    ConnectResult :=
  match buildConnections factory initConnections with
  | .error e => .err e
  | .ok conns =>
    match conns.head? with
    | none => .panicIndexOutOfBounds
    | some first => .ok { connections := conns, whisperId := first.id, channelMap := [] }

/-- Modelled from the spec: a session that processes a successful `Join`
adds the channel to its context's joined-channel set. This update happens
in the session task (`client/single`, outside the pool module); spec
section 3 (Session Context) and the section 8 scenario where the first
session's count rises to 1 after its first join. -/
def ConnectionHandle.applyJoin (h : ConnectionHandle) (c : Channel) : ConnectionHandle :=
  if c ∈ h.joinedChannels then h else { h with joinedChannels := c :: h.joinedChannels }

/-- Modelled from the spec: apply a successful join of channel `c` on the
session with id `sid` to the pool's view of the session contexts. -/
def applyJoinToPool (p : ConnectionPool) (sid : Nat) (c : Channel) : ConnectionPool :=
  { p with
    connections := p.connections.map (fun h => if h.id == sid then h.applyJoin c else h) }

/-- Protocol events carried on the event bus; their structure is irrelevant
to the pool, which only forwards them. -/
inductive Event where
  | event (tag : Nat)
  deriving DecidableEq, Repr

/-- Mirrors `EventChannelError` (`Closed` / `Overflow`). -/
inductive EventChannelError where
  | closed
  | overflow
  deriving DecidableEq, Repr

/-- The crate `Error` type as visible in this module: event-channel errors
(via the `From<EventChannelError>` conversion used by `.into()`) or any
other error with an opaque detail. -/
inductive Error where
  | eventChannel (e : EventChannelError)
  | other (detail : String)
  deriving DecidableEq, Repr

/-- Mirrors `tokio::sync::broadcast::RecvError`. -/
inductive RecvError where
  | closed
  | lagged (count : Nat)
  deriving DecidableEq, Repr

/-- The per-item closure of `subscribe_events`: unwrap broadcast items, and
map receiver errors to `EventChannelError::Closed` / `Overflow` converted
into the crate error. -/
def mapRecvItem : Except RecvError (Except Error Event) → Except Error Event
  | .ok event => event
  | .error .closed => .error (.eventChannel .closed)
  | .error (.lagged _) => .error (.eventChannel .overflow)

/-- Mirrors `ConnectionPoolHandle::subscribe_events` on the item sequence
of the fresh broadcast receiver obtained from `event_sender.subscribe()`:
each call maps its own receiver's items through `mapRecvItem`. -/
def subscribeEvents (received : List (Except RecvError (Except Error Event))) :
    List (Except Error Event) :=
  received.map mapRecvItem

/-! ## Helper lemmas -/

theorem lookupChannel_insert (m : List (Channel × WeakHandle)) (c : Channel) (w : WeakHandle) :
    lookupChannel (insertChannel m c w) c = some w := by
  simp [lookupChannel, insertChannel, List.find?_cons_of_pos]

theorem getChannelConnection_insert (p : ConnectionPool) (c : Channel) (w : WeakHandle)
    (hl : w.live = true) :
    ConnectionPool.getChannelConnection { p with channelMap := insertChannel p.channelMap c w } c
      = some w.targetId := by
  simp [ConnectionPool.getChannelConnection, lookupChannel_insert, hl]

theorem closeLoop_resolutions_length (env : StepEnv) (conns : List ConnectionHandle) :
    (closeLoop env conns).2.length =
      if conns.all (fun h => isOkResult (env.sendResult h.id .close)) = true then 0 else 1 := by
  induction conns with
  | nil => simp [closeLoop]
  | cons h rest ih =>
    cases hs : env.sendResult h.id .close with
    | ok r => simpa [closeLoop, hs, isOkResult] using ih
    | error e => simp [closeLoop, hs, isOkResult]

theorem closeLoop_all_ok (env : StepEnv) (conns : List ConnectionHandle)
    (hok : ∀ h ∈ conns, isOkResult (env.sendResult h.id .close) = true) :
    closeLoop env conns = (conns.map (fun h => (h.id, .close)), []) := by
  induction conns with
  | nil => simp [closeLoop]
  | cons h rest ih =>
    have hh := hok h (by simp)
    cases hs : env.sendResult h.id .close with
    | ok r =>
      have := ih (fun x hx => hok x (by simp [hx]))
      simp [closeLoop, hs, this]
    | error e => simp [isOkResult, hs] at hh

theorem closeLoop_first_failure (env : StepEnv) (l₁ : List ConnectionHandle)
    (h : ConnectionHandle) (l₂ : List ConnectionHandle) (e : MessageSendError)
    (hok : ∀ h2 ∈ l₁, isOkResult (env.sendResult h2.id .close) = true)
    (hfail : env.sendResult h.id .close = .error e) :
    closeLoop env (l₁ ++ h :: l₂)
      = (l₁.map (fun x => (x.id, .close)) ++ [(h.id, .close)], [.error e]) := by
  induction l₁ with
  | nil => simp [closeLoop, hfail]
  | cons a rest ih =>
    have ha := hok a (by simp)
    cases hs : env.sendResult a.id .close with
    | ok r =>
      have := ih (fun x hx => hok x (by simp [hx]))
      simp [closeLoop, hs, this]
    | error e2 => simp [isOkResult, hs] at ha

/-! ## Claim theorems -/

/-- C10: every stream returned by `subscribe_events` is the per-call map of
its own fresh receiver's items, and consumer-side failures surface as
stream error items: a closed broadcast channel maps to the
`EventChannelError.closed` error and a lagged consumer maps to the
`EventChannelError.overflow` error, while ordinary items pass through. -/
theorem subscribe_events_error_mapping :
    (∀ received, subscribeEvents received = received.map mapRecvItem) ∧
    mapRecvItem (.error .closed) = .error (.eventChannel .closed) ∧
    (∀ n, mapRecvItem (.error (.lagged n)) = .error (.eventChannel .overflow)) ∧
    (∀ r, mapRecvItem (.ok r) = r) :=
  ⟨fun _ => rfl, rfl, fun _ => rfl, fun _ => rfl⟩

/-- C3: calling `connect` with `init_connections = 0` does not return an
error value; the initial-connection loop builds an empty vector and the
expression `default_connections[0]` is then evaluated on it, an
out-of-bounds index, i.e. a panic rather than a returned error. -/
theorem connect_zero_init_reaches_out_of_bounds :
    ∀ factory, connect factory 0 = ConnectResult.panicIndexOutOfBounds :=
  fun _ => rfl

/-- C7: a `PrivMsg` or `Part` whose channel is absent from the channel map,
or whose weak reference no longer upgrades (dead), resolves the responder
with `ChannelNotJoined` carrying the original message unchanged, dispatches
nothing, and leaves the pool untouched; the first conjunct characterises
exactly when the lookup fails as absent-or-dead. -/
theorem privmsg_part_channel_not_joined (env : StepEnv) (p : ConnectionPool) (ch : Channel)
    (m : String) :
    (p.getChannelConnection ch = none ↔
      lookupChannel p.channelMap ch = none ∨
        ∃ w, lookupChannel p.channelMap ch = some w ∧ w.live = false) ∧
    (p.getChannelConnection ch = none →
      (step env p (.privMsg ch m)).resolutions
          = [.error (.channelNotJoined (.privMsg ch m))] ∧
        (step env p (.privMsg ch m)).dispatches = [] ∧
        (step env p (.privMsg ch m)).pool = p ∧
        (step env p (.part ch)).resolutions = [.error (.channelNotJoined (.part ch))] ∧
        (step env p (.part ch)).dispatches = [] ∧
        (step env p (.part ch)).pool = p) := by
  constructor
  · cases hl : lookupChannel p.channelMap ch with
    | none => simp [ConnectionPool.getChannelConnection, hl]
    | some w =>
      cases hlive : w.live <;>
        simp [ConnectionPool.getChannelConnection, hl, hlive]
  · intro hnone
    refine ⟨?_, ?_, ?_, ?_, ?_, ?_⟩ <;> simp [step, hnone]

def envC7 : StepEnv :=
  { sendResult := fun _ _ => .ok (.response 0), factory := .error ("unused"), threshold := 0 }

def poolC7 : ConnectionPool :=
  { connections := [{ id := 0, joinedChannels := [] }], whisperId := 0
    channelMap := [(("c"), { targetId := 0, live := false })] }

/-- Witness for C7 at a pool whose map holds a dead weak reference for the
channel: the lookup fails and the responder gets `ChannelNotJoined` with
the original message, with no dispatch. -/
theorem privmsg_part_channel_not_joined_witness :
    (step envC7 poolC7 (.privMsg ("c") ("hi"))).resolutions
        = [.error (.channelNotJoined (.privMsg ("c") ("hi")))] ∧
      (step envC7 poolC7 (.part ("c"))).dispatches = [] :=
  ⟨((privmsg_part_channel_not_joined envC7 poolC7 ("c") ("hi")).2 rfl).1,
    ((privmsg_part_channel_not_joined envC7 poolC7 ("c") ("hi")).2 rfl).2.2.2.2.1⟩

/-- C5: on the `Join` path where the channel is unmapped and no existing
session qualifies, a successful factory outcome leads to the join being
dispatched to the new session, the strong reference being pushed onto the
session list, and the channel-to-session weak mapping being inserted
regardless of the dispatch outcome (the send oracle is arbitrary); a
factory failure resolves the responder with `NewConnectionFailed` carrying
the failure detail, with no dispatch and no state change. -/
theorem join_new_connection_path (env : StepEnv) (p : ConnectionPool) (ch : Channel)
    (h1 : p.getChannelConnection ch = none)
    (h2 : placement p.connections env.threshold = none) :
    (∀ conn, env.factory = .ok conn →
      (step env p (.join ch)).pool.connections = p.connections ++ [conn] ∧
        (step env p (.join ch)).pool.channelMap
          = insertChannel p.channelMap ch { targetId := conn.id, live := true } ∧
        (step env p (.join ch)).dispatches = [(conn.id, .join ch)] ∧
        (step env p (.join ch)).resolutions = [env.sendResult conn.id (.join ch)]) ∧
    (∀ e, env.factory = .error e →
      (step env p (.join ch)).resolutions = [.error (.newConnectionFailed e)] ∧
        (step env p (.join ch)).dispatches = [] ∧
        (step env p (.join ch)).pool = p) := by
  constructor
  · intro conn hf
    refine ⟨?_, ?_, ?_, ?_⟩ <;> simp [step, h1, h2, hf, respondWithErrors]
  · intro e hf
    refine ⟨?_, ?_, ?_⟩ <;> simp [step, h1, h2, hf, respondWithErrors]

def envC5 : StepEnv :=
  { sendResult := fun _ _ => .error (.sessionError 3), factory := .ok { id := 7, joinedChannels := [] }
    threshold := 5 }

def poolC5 : ConnectionPool := { connections := [], whisperId := 0, channelMap := [] }

/-- Witness for C5: the factory succeeds with session 7, the dispatch to it
fails, and the weak mapping is inserted anyway while the failure reaches
the responder. -/
theorem join_new_connection_path_witness :
    (step envC5 poolC5 (.join ("c"))).pool.channelMap
        = insertChannel [] ("c") { targetId := 7, live := true } ∧
      (step envC5 poolC5 (.join ("c"))).resolutions = [.error (.sessionError 3)] :=
  ⟨((join_new_connection_path envC5 poolC5 ("c") rfl rfl).1
      { id := 7, joinedChannels := [] } rfl).2.1,
    ((join_new_connection_path envC5 poolC5 ("c") rfl rfl).1
      { id := 7, joinedChannels := [] } rfl).2.2.2⟩

/-- C8: `Whisper`, `Ping` and `Pong` are always dispatched to the dedicated
whisper session; no command processed by the actor changes which session is
the whisper session; and at construction the whisper session is the session
at index 0 of the session list. -/
theorem whisper_session_fixed :
    (∀ env p (r m : String),
      (step env p (.whisper r m)).dispatches = [(p.whisperId, .whisper r m)]) ∧
    (∀ env p, (step env p .ping).dispatches = [(p.whisperId, .ping)]) ∧
    (∀ env p, (step env p .pong).dispatches = [(p.whisperId, .pong)]) ∧
    (∀ env p msg, (step env p msg).pool.whisperId = p.whisperId) ∧
    (∀ factory n pool, connect factory n = .ok pool →
      pool.connections.head?.map ConnectionHandle.id = some pool.whisperId) := by
  refine ⟨fun env p r m => rfl, fun env p => rfl, fun env p => rfl, ?_, ?_⟩
  · intro env p msg
    cases msg with
    | privMsg channel m => cases h : p.getChannelConnection channel <;> simp [step, h]
    | part channel => cases h : p.getChannelConnection channel <;> simp [step, h]
    | join channel =>
      cases h : p.getChannelConnection channel with
      | some sid => simp [step, h]
      | none =>
        cases h2 : placement p.connections env.threshold with
        | some handle => simp [step, h, h2]
        | none => cases h3 : env.factory <;> simp [step, h, h2, h3]
    | _ => rfl
  · intro factory n pool hc
    unfold connect at hc
    cases hb : buildConnections factory n with
    | error e => simp [hb] at hc
    | ok conns =>
      cases hh : conns.head? with
      | none => simp [hb, hh] at hc
      | some first =>
        simp only [hb, hh] at hc
        cases hc
        simp [hh]

def factC8 : Nat → Except String ConnectionHandle :=
  fun i => .ok { id := i + 10, joinedChannels := [] }

def poolC8 : ConnectionPool :=
  { connections := [{ id := 10, joinedChannels := [] }], whisperId := 10, channelMap := [] }

/-- Witness for C8: a pool built with one initial session has that session,
at index 0, as its whisper session. -/
theorem whisper_session_fixed_witness :
    poolC8.connections.head?.map ConnectionHandle.id = some poolC8.whisperId :=
  whisper_session_fixed.2.2.2.2 factC8 1 poolC8 rfl

def envC1 : StepEnv :=
  { sendResult := fun _ _ => .ok (.response 0), factory := .error ("unused"), threshold := 0 }

def poolC1 : ConnectionPool :=
  { connections := [{ id := 0, joinedChannels := [] }], whisperId := 0, channelMap := [] }

/-- C1 counterexample: processing a `Close` command on a one-session pool
whose close send succeeds sends nothing through the responder, so the
responder is dropped without being resolved, contradicting the claim that
every code path resolves it exactly once. -/
theorem close_all_ok_drops_responder :
    (step envC1 poolC1 ClientMessage.close).resolutions = [] ∧
      (step envC1 poolC1 ClientMessage.close).resolutions.length ≠ 1 :=
  ⟨rfl, by decide⟩

/-- C1 amended: every command envelope consumed by the actor resolves its
responder exactly once, except a `Close` command all of whose per-session
close sends succeed, which resolves the responder zero times (it is
dropped without a reply); a `Close` resolves the responder exactly once
precisely when some close send fails. -/
theorem responder_resolution_count (env : StepEnv) (p : ConnectionPool) (msg : ClientMessage) :
    (step env p msg).resolutions.length =
      match msg with
      | .close =>
        if p.connections.all (fun h => isOkResult (env.sendResult h.id .close)) = true
          then 0 else 1
      | _ => 1 := by
  cases msg with
  | privMsg channel m =>
    cases h : p.getChannelConnection channel <;> simp [step, h, respondWithErrors]
  | part channel =>
    cases h : p.getChannelConnection channel <;> simp [step, h, respondWithErrors]
  | join channel =>
    cases h : p.getChannelConnection channel with
    | some sid => simp [step, h, respondWithErrors]
    | none =>
      cases h2 : placement p.connections env.threshold with
      | some handle => simp [step, h, h2, respondWithErrors]
      | none =>
        cases h3 : env.factory <;> simp [step, h, h2, h3, respondWithErrors]
  | close => simpa [step] using closeLoop_resolutions_length env p.connections
  | _ => rfl

/-- C6: processing a `Close` sends a close command to every session in
session-list order; if every send succeeds all sessions receive the close
(and nothing is sent through the responder), while the first failing send
is propagated to the responder and no session after the failing one
receives a close attempt. -/
theorem close_sequential_first_failure :
    (∀ env p,
      (∀ h ∈ p.connections, isOkResult (env.sendResult h.id ClientMessage.close) = true) →
      (step env p ClientMessage.close).dispatches
          = p.connections.map (fun h => (h.id, ClientMessage.close)) ∧
        (step env p ClientMessage.close).resolutions = []) ∧
    (∀ env p l₁ h l₂ e, p.connections = l₁ ++ h :: l₂ →
      (∀ h2 ∈ l₁, isOkResult (env.sendResult h2.id ClientMessage.close) = true) →
      env.sendResult h.id ClientMessage.close = .error e →
      (step env p ClientMessage.close).dispatches
          = l₁.map (fun x => (x.id, ClientMessage.close)) ++ [(h.id, ClientMessage.close)] ∧
        (step env p ClientMessage.close).resolutions = [.error e]) := by
  constructor
  · intro env p hok
    have := closeLoop_all_ok env p.connections hok
    simp [step, this]
  · intro env p l₁ h l₂ e hsplit hok hfail
    have := closeLoop_first_failure env l₁ h l₂ e hok hfail
    simp [step, hsplit, this]

def envC6 : StepEnv :=
  { sendResult := fun sid _ => if sid == 1 then .error (.sessionError 7) else .ok (.response 0)
    factory := .error ("unused"), threshold := 0 }

def poolC6 : ConnectionPool :=
  { connections :=
      [{ id := 0, joinedChannels := [] }, { id := 1, joinedChannels := [] }
        , { id := 2, joinedChannels := [] }]
    whisperId := 0, channelMap := [] }

/-- Witness for C6: with three sessions and the second close send failing,
sessions 0 and 1 receive close attempts, session 2 receives none, and the
failure is propagated to the responder. -/
theorem close_sequential_first_failure_witness :
    (step envC6 poolC6 ClientMessage.close).dispatches
        = [(0, ClientMessage.close), (1, ClientMessage.close)] ∧
      (step envC6 poolC6 ClientMessage.close).resolutions = [.error (.sessionError 7)] := by
  have h := close_sequential_first_failure.2 envC6 poolC6
    [{ id := 0, joinedChannels := [] }] { id := 1, joinedChannels := [] }
    [{ id := 2, joinedChannels := [] }] (.sessionError 7) rfl (by decide) rfl
  exact ⟨h.1, h.2⟩

def envC2 : StepEnv :=
  { sendResult := fun _ _ => .ok (.response 0)
    factory := .ok { id := 1, joinedChannels := [] }, threshold := 0 }

def poolC2 : ConnectionPool :=
  { connections := [{ id := 0, joinedChannels := [] }], whisperId := 0, channelMap := [] }

/-- C2 counterexample: with one session (no channels joined) and threshold
0, a first `Join` of the unmapped channel `a` is placed on session 0 and
returns `Ok`, but no channel mapping is inserted on this path; after the
session's joined set grows by the joined channel, a second `Join` of the
same channel is not routed to session 0: it triggers the factory and a
second session is created (and dispatched to), contradicting the claim. -/
theorem join_not_idempotent_on_existing_session :
    (step envC2 poolC2 (.join ("a"))).dispatches = [(0, .join ("a"))] ∧
      (step envC2 poolC2 (.join ("a"))).resolutions = [.ok (.response 0)] ∧
      (step envC2 poolC2 (.join ("a"))).pool = poolC2 ∧
      (step envC2 (applyJoinToPool poolC2 0 ("a")) (.join ("a"))).dispatches
        = [(1, .join ("a"))] ∧
      (step envC2 (applyJoinToPool poolC2 0 ("a")) (.join ("a"))).pool.connections.length = 2 :=
  ⟨rfl, rfl, rfl, rfl, rfl⟩

/-- C2 amended: the idempotence claim holds on the path where the first
`Join` of an unmapped channel created a new session, because only that
path inserts the channel mapping: a subsequent `Join` of the same channel
is then routed to that same session and leaves the pool (in particular the
session list) unchanged. When the first `Join` is placed on an existing
session, no mapping is inserted and a subsequent `Join` re-runs the
placement policy, which may create a new session. -/
theorem join_idempotent_after_new_session (env env2 : StepEnv) (p : ConnectionPool)
    (ch : Channel) (conn : ConnectionHandle)
    (h1 : p.getChannelConnection ch = none)
    (h2 : placement p.connections env.threshold = none)
    (h3 : env.factory = .ok conn) :
    (step env2 (step env p (.join ch)).pool (.join ch)).dispatches = [(conn.id, .join ch)] ∧
      (step env2 (step env p (.join ch)).pool (.join ch)).pool
        = (step env p (.join ch)).pool := by
  have hp : (step env p (.join ch)).pool
      = { p with
          connections := p.connections ++ [conn]
          channelMap := insertChannel p.channelMap ch { targetId := conn.id, live := true } } := by
    simp [step, h1, h2, h3]
  have hget : ((step env p (.join ch)).pool).getChannelConnection ch = some conn.id := by
    rw [hp]
    exact getChannelConnection_insert
      { p with connections := p.connections ++ [conn] } ch
      { targetId := conn.id, live := true } rfl
  generalize hq : (step env p (.join ch)).pool = q at hget ⊢
  constructor <;> simp [step, hget]

def envC2a : StepEnv :=
  { sendResult := fun _ _ => .ok (.response 1)
    factory := .ok { id := 3, joinedChannels := [] }, threshold := 0 }

def poolC2a : ConnectionPool := { connections := [], whisperId := 0, channelMap := [] }

/-- Witness for the amended C2: a first `Join` that created session 3 is
followed by a second `Join` of the same channel that is dispatched to
session 3 and changes nothing. -/
theorem join_idempotent_after_new_session_witness :
    (step envC2a (step envC2a poolC2a (.join ("b"))).pool (.join ("b"))).dispatches
        = [(3, .join ("b"))] ∧
      (step envC2a (step envC2a poolC2a (.join ("b"))).pool (.join ("b"))).pool
        = (step envC2a poolC2a (.join ("b"))).pool :=
  join_idempotent_after_new_session envC2a envC2a poolC2a ("b")
    { id := 3, joinedChannels := [] } rfl rfl rfl

/-! ## Placement-policy lemmas -/

theorem minByKeyFirst_eq_none (l : List (ConnectionHandle × Nat)) :
    minByKeyFirst l = none ↔ l = [] := by
  cases l with
  | nil => simp [minByKeyFirst]
  | cons x xs => cases hm : minByKeyFirst xs <;> simp [minByKeyFirst, hm]

theorem minByKeyFirst_spec (l : List (ConnectionHandle × Nat)) (b : ConnectionHandle × Nat)
    (hb : minByKeyFirst l = some b) :
    (∀ x ∈ l, b.2 ≤ x.2) ∧ ∃ l₁ l₂, l = l₁ ++ b :: l₂ ∧ ∀ x ∈ l₁, b.2 < x.2 := by
  induction l generalizing b with
  | nil => simp [minByKeyFirst] at hb
  | cons x xs ih =>
    cases hm : minByKeyFirst xs with
    | none =>
      have hxs : xs = [] := (minByKeyFirst_eq_none xs).mp hm
      subst hxs
      simp only [minByKeyFirst, Option.some.injEq] at hb
      subst hb
      exact ⟨by simp, [], [], rfl, by simp⟩
    | some c =>
      obtain ⟨hmin, m₁, m₂, hdec, hstrict⟩ := ih c hm
      simp only [minByKeyFirst, hm, Option.some.injEq] at hb
      by_cases hlt : c.2 < x.2
      · rw [if_pos hlt] at hb
        subst hb
        refine ⟨?_, x :: m₁, m₂, by rw [hdec]; rfl, ?_⟩
        · intro y hy
          rcases List.mem_cons.mp hy with h | h
          · subst h; omega
          · exact hmin y h
        · intro y hy
          rcases List.mem_cons.mp hy with h | h
          · subst h; exact hlt
          · exact hstrict y h
      · rw [if_neg hlt] at hb
        subst hb
        refine ⟨?_, [], xs, rfl, by simp⟩
        intro y hy
        rcases List.mem_cons.mp hy with h | h
        · subst h; exact Nat.le_refl _
        · exact Nat.le_trans (Nat.le_of_not_lt hlt) (hmin y h)

theorem mem_eligiblePairs {x : ConnectionHandle × Nat} {conns : List ConnectionHandle}
    {t : Nat} :
    x ∈ eligiblePairs conns t ↔
      x.1 ∈ conns ∧ x.2 = x.1.joinedChannels.length ∧ x.1.joinedChannels.length ≤ t := by
  simp only [eligiblePairs, List.mem_filterMap]
  constructor
  · rintro ⟨a, ha, hfa⟩
    by_cases hle : a.joinedChannels.length ≤ t
    · rw [if_pos hle] at hfa
      cases hfa
      exact ⟨ha, rfl, hle⟩
    · rw [if_neg hle] at hfa
      cases hfa
  · rintro ⟨h1, h2, h3⟩
    refine ⟨x.1, h1, ?_⟩
    rw [if_pos h3, ← h2]

theorem eligiblePairs_eq_nil {conns : List ConnectionHandle} {t : Nat} :
    eligiblePairs conns t = [] ↔ ∀ h ∈ conns, t < h.joinedChannels.length := by
  rw [eligiblePairs, List.filterMap_eq_nil_iff]
  constructor
  · intro hall h hm
    have := hall h hm
    by_cases hle : h.joinedChannels.length ≤ t
    · rw [if_pos hle] at this; cases this
    · omega
  · intro hall h hm
    have := hall h hm
    rw [if_neg (by omega)]

theorem filterMap_eq_append_cons {α β : Type} (f : α → Option β) (l : List α)
    (l₁ : List β) (b : β) (l₂ : List β) (h : l.filterMap f = l₁ ++ b :: l₂) :
    ∃ m₁ a m₂, l = m₁ ++ a :: m₂ ∧ f a = some b ∧ m₁.filterMap f = l₁ := by
  induction l generalizing l₁ with
  | nil =>
    rw [List.filterMap_nil] at h
    exact absurd h.symm (List.append_ne_nil_of_right_ne_nil _ (by simp))
  | cons a rest ih =>
    cases hf : f a with
    | none =>
      rw [List.filterMap_cons_none hf] at h
      obtain ⟨m₁, a2, m₂, hdec, hfa, hm⟩ := ih _ h
      exact ⟨a :: m₁, a2, m₂, by rw [hdec]; rfl,
        hfa, by rw [List.filterMap_cons_none hf, hm]⟩
    | some y =>
      rw [List.filterMap_cons_some hf] at h
      cases l₁ with
      | nil =>
        simp only [List.nil_append, List.cons.injEq] at h
        exact ⟨[], a, rest, rfl, by rw [hf, h.1], rfl⟩
      | cons y2 l₁t =>
        simp only [List.cons_append, List.cons.injEq] at h
        obtain ⟨m₁, a2, m₂, hdec, hfa, hm⟩ := ih _ h.2
        exact ⟨a :: m₁, a2, m₂, by rw [hdec]; rfl, hfa,
          by rw [List.filterMap_cons_some hf, hm, h.1]⟩

/-- C4: for every session list and threshold, the placement for a `Join` of
an unmapped channel signals "no eligible session" exactly when every
session's joined-channel count exceeds the threshold, and otherwise selects
a session whose count is within the threshold and minimal among all
within-threshold sessions, with ties broken by picking the first such
session in iteration order (every earlier within-threshold session has a
strictly larger count). -/
theorem placement_policy (conns : List ConnectionHandle) (t : Nat) :
    (placement conns t = none ↔ ∀ h ∈ conns, t < h.joinedChannels.length) ∧
    (∀ h, placement conns t = some h →
      h.joinedChannels.length ≤ t ∧
        (∀ h2 ∈ conns, h2.joinedChannels.length ≤ t →
          h.joinedChannels.length ≤ h2.joinedChannels.length) ∧
        ∃ l₁ l₂, conns = l₁ ++ h :: l₂ ∧
          ∀ h2 ∈ l₁, h2.joinedChannels.length ≤ t →
            h.joinedChannels.length < h2.joinedChannels.length) := by
  constructor
  · constructor
    · intro hn
      cases hm : minByKeyFirst (eligiblePairs conns t) with
      | none => exact eligiblePairs_eq_nil.mp ((minByKeyFirst_eq_none _).mp hm)
      | some b => simp [placement, hm] at hn
    · intro hall
      simp [placement, (minByKeyFirst_eq_none _).mpr (eligiblePairs_eq_nil.mpr hall)]
  · intro h hsome
    simp only [placement] at hsome
    cases hm : minByKeyFirst (eligiblePairs conns t) with
    | none => rw [hm] at hsome; cases hsome
    | some b =>
      rw [hm] at hsome
      simp only [Option.map_some', Option.some.injEq] at hsome
      obtain ⟨hmin, l₁, l₂, hdec, hstrict⟩ := minByKeyFirst_spec _ b hm
      have hbmem : b ∈ eligiblePairs conns t := by rw [hdec]; simp
      obtain ⟨hbconns, hbcount, hble⟩ := mem_eligiblePairs.mp hbmem
      subst hsome
      refine ⟨hble, ?_, ?_⟩
      · intro h2 hmem hle
        have hpair : (h2, h2.joinedChannels.length) ∈ eligiblePairs conns t :=
          mem_eligiblePairs.mpr ⟨hmem, rfl, hle⟩
        have := hmin _ hpair
        omega
      · have hdec2 : conns.filterMap
            (fun handle => if handle.joinedChannels.length ≤ t
              then some (handle, handle.joinedChannels.length) else none)
            = l₁ ++ b :: l₂ := hdec
        obtain ⟨m₁, a, m₂, hcdec, hfa, hm₁⟩ :=
          filterMap_eq_append_cons _ conns l₁ b l₂ hdec2
        have ha : a = b.1 := by
          by_cases hle : a.joinedChannels.length ≤ t
          · rw [if_pos hle] at hfa
            cases hfa
            rfl
          · rw [if_neg hle] at hfa
            cases hfa
        refine ⟨m₁, m₂, by rw [hcdec, ha], ?_⟩
        intro h2 hmem hle
        have hpair : (h2, h2.joinedChannels.length) ∈ m₁.filterMap
            (fun handle => if handle.joinedChannels.length ≤ t
              then some (handle, handle.joinedChannels.length) else none) :=
          List.mem_filterMap.mpr ⟨h2, hmem, by rw [if_pos hle]⟩
        rw [hm₁] at hpair
        have := hstrict _ hpair
        omega

def connsC4 : List ConnectionHandle :=
  [{ id := 0, joinedChannels := [("x"), ("y")] }, { id := 1, joinedChannels := [("x")] }
    , { id := 2, joinedChannels := [("z")] }]

/-- Witness for C4: on sessions with counts 2, 1, 1 and threshold 1, the
policy picks session 1 (the first of the two tied minimal eligible
sessions); its count is within the threshold and minimal. -/
theorem placement_policy_witness :
    ({ id := 1, joinedChannels := [("x")] } : ConnectionHandle).joinedChannels.length ≤ 1 ∧
      ({ id := 1, joinedChannels := [("x")] } : ConnectionHandle).joinedChannels.length
        ≤ ({ id := 2, joinedChannels := [("z")] } : ConnectionHandle).joinedChannels.length :=
  ⟨((placement_policy connsC4 1).2 { id := 1, joinedChannels := [("x")] } rfl).1,
    ((placement_policy connsC4 1).2 { id := 1, joinedChannels := [("x")] } rfl).2.1
      { id := 2, joinedChannels := [("z")] } (by decide) (by decide)⟩

end TmiPool
